import Mathlib

/-!
Verification of the edgeo-scada/snmp BER codec and client against its
specification. Go byte slices are modelled as `List Nat` whose elements are
below 256 (every encoder below only ever emits such values); Go `int`/`int64`
values are modelled as `Int`, Go non-negative loop counters as `Nat`.
-/

set_option maxRecDepth 20000

deriving instance DecidableEq for Except

/-- Whether an Except is an error. -/
def Except.isErr {e a : Type} : Except e a → Bool
  | .error _ => true
  | _ => false

namespace Snmp

/-- An SNMP object identifier, Go `type OID []int`. Components are
non-negative in every code path the library exercises (ParseOID rejects
negatives, decodeOID produces naturals), so they are modelled as `Nat`. -/
abbrev OID := List Nat

/-- Big-endian base-256 digits of `temp`, the `for temp > 0` prepend loop used
by encodeLength, encodeInteger and encodeUnsignedInteger. The first argument
is fuel; `temp` itself is always enough fuel. -/
def be256Aux : Nat → Nat → List Nat
  | 0, _ => []
  | fuel + 1, temp => if temp = 0 then [] else be256Aux fuel (temp / 256) ++ [temp % 256]

/-- Big-endian base-256 digits of `v` (empty for 0). -/
def be256 (v : Nat) : List Nat := be256Aux v v

/-- Go `encodeLength`: short form below 128, otherwise long form with the
first byte `0x80 | numBytes` (the count of length bytes fits in 7 bits for
any Go int, so the or is an addition). -/
def encodeLength (length : Nat) : List Nat :=
  if length < 128 then [length] else (128 + (be256 length).length) :: be256 length

/-- Go `decodeLength`, reading from a byte list instead of an io.Reader and
returning the decoded length together with the unread remainder. A first
byte below 128 is a short-form length; otherwise the low 7 bits give the
count of following big-endian length bytes, rejected above 4. Note that the
byte 0x80 falls through to the long form with a count of zero bytes and
decodes as length 0 without an error. -/
def decodeLength : List Nat → Except String (Nat × List Nat)
  | [] => .error "EOF"
  | b :: rest =>
    if b < 128 then .ok (b, rest)
    else
      let numBytes := b % 128
      if numBytes > 4 then .error "length too large"
      else if rest.length < numBytes then .error "EOF"
      else .ok ((rest.take numBytes).foldl (fun acc lb => acc * 256 + lb) 0, rest.drop numBytes)

/-- Wrap an integer into the signed 64-bit range, the overflow behaviour of
Go int64 arithmetic. -/
def wrap64 (i : Int) : Int := (i + 2 ^ 63) % 2 ^ 64 - 2 ^ 63

/-- Wrap an integer into the signed 32-bit range, the overflow behaviour of
Go int32 arithmetic. -/
def wrap32 (i : Int) : Int := (i + 2 ^ 31) % 2 ^ 32 - 2 ^ 31

/-- Go two's-complement byte loop of `encodeInteger` for a negative value:
prepend `temp & 0xff` and arithmetic-shift right by 8 while
`temp < -1 || (temp == -1 && buf empty)`. The fuel always suffices. -/
def encodeNegAux : Nat → Int → List Nat → List Nat
  | 0, _, buf => buf
  | fuel + 1, temp, buf =>
    if temp < -1 ∨ (temp = -1 ∧ buf = []) then
      encodeNegAux fuel (Int.fdiv temp 256) ((temp % 256).toNat :: buf)
    else buf

/-- Go `encodeInteger`: minimal big-endian two's complement of an int64. -/
def encodeInteger (value : Int) : List Nat :=
  if value = 0 then [0]
  else if 0 < value then
    let buf := be256 value.toNat
    if 128 ≤ buf.headD 0 then 0 :: buf else buf
  else
    let buf := encodeNegAux (value.natAbs + 1) value []
    if buf.headD 0 < 128 then 255 :: buf else buf

/-- Go `decodeInteger`: big-endian two's complement accumulation
`value = value<<8 | b` on int64, seeded with -1 when the top bit of the
first byte is set. The shift-or on a byte equals `wrap64 (value*256 + b)`. -/
def decodeInteger (data : List Nat) : Int :=
  data.foldl (fun acc b => wrap64 (acc * 256 + b)) (if 128 ≤ data.headD 0 then -1 else 0)

/-- Go `encodeUnsignedInteger`: minimal big-endian bytes with one 0x00
prepended when the top bit would be set. -/
def encodeUnsignedInteger (value : Nat) : List Nat :=
  if value = 0 then [0]
  else
    let buf := be256 value
    if 128 ≤ buf.headD 0 then 0 :: buf else buf

/-- Go `decodeUnsignedInteger`: big-endian accumulation `value = value<<8 | b`
on uint64, which wraps modulo 2^64. -/
def decodeUnsignedInteger (data : List Nat) : Nat :=
  data.foldl (fun acc b => (acc * 256 + b) % 2 ^ 64) 0

/-- Big-endian base-128 digits of `temp`, the `for temp > 0` prepend loop of
encodeOIDComponent (before the high bits are set). Fuel-indexed; `temp`
itself is always enough fuel. -/
def oidDigitsAux : Nat → Nat → List Nat
  | 0, _ => []
  | fuel + 1, temp => if temp = 0 then [] else oidDigitsAux fuel (temp / 128) ++ [temp % 128]

/-- Big-endian base-128 digits of `v` (empty for 0). -/
def oidDigits (v : Nat) : List Nat := oidDigitsAux v v

/-- Go loop setting the continuation bit 0x80 on every byte but the last
(`buf[i] |= 0x80` for `i < len(buf)-1`; the digits are below 128 so the or
is an addition). -/
def setHighBits : List Nat → List Nat
  | [] => []
  | [b] => [b]
  | b :: rest => (b + 128) :: setHighBits rest

/-- Go `encodeOIDComponent`: single byte below 128, otherwise base-128
big-endian with the high bit set on all but the last byte. -/
def encodeOIDComponent (value : Nat) : List Nat :=
  if value < 128 then [value] else setHighBits (oidDigits value)

/-- Go loop of `encodeOID` over `oid[2:]`, appending the component
encodings in order. -/
def encodeOIDRest : List Nat → List Nat
  | [] => []
  | c :: rest => encodeOIDComponent c ++ encodeOIDRest rest

/-- Go `encodeOID`: nil for fewer than two components, otherwise the byte
`oid[0]*40 + oid[1]` (truncated to a byte, as the Go conversion does)
followed by the remaining components. -/
def encodeOID (oid : OID) : List Nat :=
  match oid with
  | a :: b :: rest => (40 * a + b) % 256 :: encodeOIDRest rest
  | _ => []

/-- Go loop of `decodeOID` over `data[1:]`: accumulate 7-bit groups
(`current = current<<7 | (b & 0x7f)`) and emit a component when the high
bit is clear. Bytes are below 256, so the high-bit test is `b < 128`.
A trailing group whose last byte still has the high bit set is dropped,
as in the source. -/
def decodeOIDLoop : List Nat → Nat → List Nat
  | [], _ => []
  | b :: rest, current =>
    let cur := current * 128 + b % 128
    if b < 128 then cur :: decodeOIDLoop rest 0 else decodeOIDLoop rest cur

/-- Go `decodeOID`: rejects an empty encoding, splits the first byte as
`data[0]/40` and `data[0]%40`, then decodes base-128 components. -/
def decodeOID (data : List Nat) : Except String OID :=
  match data with
  | [] => .error "empty OID"
  | b :: rest => .ok (b / 40 :: b % 40 :: decodeOIDLoop rest 0)

/-- ASN.1 tag constants from types.go, as byte values. -/
def TypeInteger : Nat := 0x02

def TypeOctetString : Nat := 0x04

def TypeNull : Nat := 0x05

def TypeObjectIdentifier : Nat := 0x06

def TypeIPAddress : Nat := 0x40

def TypeCounter32 : Nat := 0x41

def TypeGauge32 : Nat := 0x42

def TypeTimeTicks : Nat := 0x43

def TypeOpaque : Nat := 0x44

def TypeCounter64 : Nat := 0x46

def TypeUInteger32 : Nat := 0x47

def TypeSequence : Nat := 0x30

def TypeGetRequest : Nat := 0xA0

def TypeGetNextRequest : Nat := 0xA1

def TypeGetResponse : Nat := 0xA2

def TypeSetRequest : Nat := 0xA3

def TypeTrapV1 : Nat := 0xA4

def TypeGetBulkRequest : Nat := 0xA5

def TypeInformRequest : Nat := 0xA6

def TypeTrapV2 : Nat := 0xA7

def TypeNoSuchObject : Nat := 0x80

def TypeNoSuchInstance : Nat := 0x81

def TypeEndOfMibView : Nat := 0x82

/-- Go `encodeTLV`: tag byte, encoded length, value bytes. -/
def encodeTLV (berType : Nat) (value : List Nat) : List Nat :=
  berType :: encodeLength value.length ++ value

/-- Go `decodeTLV`: read the tag byte, a BER length, then that many value
bytes; returns the tag, the value and the unread remainder. -/
def decodeTLV (data : List Nat) : Except String (Nat × List Nat × List Nat) :=
  match data with
  | [] => .error "EOF"
  | t :: rest =>
    match decodeLength rest with
    | .error e => .error e
    | .ok (len, rest2) =>
      if rest2.length < len then .error "EOF"
      else .ok (t, rest2.take len, rest2.drop len)

/-- The dynamic type of a Go `interface{}` variable value, restricted to the
variants the library stores in `Variable.Value`: nil, int, int32/int64 (all
as `intV`), byte slices, strings, OIDs, net.IP (as its byte slice), uint32
and uint64. -/
inductive GoValue where
  | nil
  | intV (i : Int)
  | bytesV (bs : List Nat)
  | strV (s : String)
  | oidV (o : OID)
  | ipV (bs : List Nat)
  | uint32V (u : Nat)
  | uint64V (u : Nat)
deriving DecidableEq

/-- Go `Variable` from types.go: a varbind `{OID, Type, Value}`. The field
`Type` is renamed `vType` because `Type` is a Lean keyword. -/
structure Variable where
  oid : OID
  vType : Nat
  value : GoValue
deriving DecidableEq

/-- Go `Variable.AsInt`: the value as an int64 when its dynamic type is one
of int, int32, int64, uint32, uint64 (the uint64 conversion wraps). -/
def Variable.AsInt (v : Variable) : Option Int :=
  match v.value with
  | .intV i => some i
  | .uint32V u => some u
  | .uint64V u => some (wrap64 u)
  | _ => none

/-- Go `Variable.AsUint`: the value as a uint64 when its dynamic type is one
of int, int32, int64, uint32, uint64 (signed conversions wrap). -/
def Variable.AsUint (v : Variable) : Option Nat :=
  match v.value with
  | .intV i => some ((i % 2 ^ 64).toNat)
  | .uint32V u => some u
  | .uint64V u => some u
  | _ => none

/-- Bytes of a Go string (UTF-8). -/
def strBytes (s : String) : List Nat := s.toUTF8.toList.map UInt8.toNat

/-- Go `encodeVariable`: the varbind OID as an OBJECT IDENTIFIER TLV, then
the value encoded by the switch on `v.Type`, wrapped in a SEQUENCE. Any tag
outside the listed cases, in particular the exception markers 0x80, 0x81 and
0x82, falls to the default branch and is an error. The net.IP string-parsing
arm of the IpAddress case is not modelled (`strV` there is an error, as any
unparseable string is in the source). -/
def encodeVariable (v : Variable) : Except String (List Nat) :=
  let oidTLV := encodeTLV TypeObjectIdentifier (encodeOID v.oid)
  if v.vType = TypeNull then
    .ok (encodeTLV TypeSequence (oidTLV ++ encodeTLV TypeNull []))
  else if v.vType = TypeInteger then
    match v.AsInt with
    | none => .error "invalid integer value"
    | some i => .ok (encodeTLV TypeSequence (oidTLV ++ encodeTLV TypeInteger (encodeInteger i)))
  else if v.vType = TypeOctetString then
    match v.value with
    | .bytesV bs => .ok (encodeTLV TypeSequence (oidTLV ++ encodeTLV TypeOctetString bs))
    | .strV s => .ok (encodeTLV TypeSequence (oidTLV ++ encodeTLV TypeOctetString (strBytes s)))
    | _ => .error "invalid octet string value"
  else if v.vType = TypeObjectIdentifier then
    match v.value with
    | .oidV o => .ok (encodeTLV TypeSequence (oidTLV ++ encodeTLV TypeObjectIdentifier (encodeOID o)))
    | _ => .error "invalid OID value"
  else if v.vType = TypeIPAddress then
    match v.value with
    | .ipV bs =>
      if bs.length = 4 then .ok (encodeTLV TypeSequence (oidTLV ++ encodeTLV TypeIPAddress bs))
      else .error "not an IPv4 address"
    | _ => .error "invalid IP address value"
  else if v.vType = TypeCounter32 ∨ v.vType = TypeGauge32 ∨ v.vType = TypeTimeTicks ∨ v.vType = TypeUInteger32 then
    match v.AsUint with
    | none => .error "invalid unsigned integer value"
    | some u => .ok (encodeTLV TypeSequence (oidTLV ++ encodeTLV v.vType (encodeUnsignedInteger u)))
  else if v.vType = TypeCounter64 then
    match v.AsUint with
    | none => .error "invalid counter64 value"
    | some u => .ok (encodeTLV TypeSequence (oidTLV ++ encodeTLV TypeCounter64 (encodeUnsignedInteger u)))
  else if v.vType = TypeOpaque then
    match v.value with
    | .bytesV bs => .ok (encodeTLV TypeSequence (oidTLV ++ encodeTLV TypeOpaque bs))
    | _ => .error "invalid opaque value"
  else .error "unsupported type"

/-- Go value switch shared by `decodeVariable` and `decodeVariables`:
interpret the value TLV according to its tag; unknown tags keep the raw
bytes and exception markers carry nil. -/
def decodeValue (valType : Nat) (valData : List Nat) : Except String GoValue :=
  if valType = TypeNull then .ok .nil
  else if valType = TypeInteger then .ok (.intV (decodeInteger valData))
  else if valType = TypeOctetString then .ok (.bytesV valData)
  else if valType = TypeObjectIdentifier then
    match decodeOID valData with
    | .error e => .error e
    | .ok o => .ok (.oidV o)
  else if valType = TypeIPAddress then
    .ok (if valData.length = 4 then .ipV valData else .bytesV valData)
  else if valType = TypeCounter32 ∨ valType = TypeGauge32 ∨ valType = TypeTimeTicks ∨ valType = TypeUInteger32 then
    .ok (.uint32V (decodeUnsignedInteger valData % 2 ^ 32))
  else if valType = TypeCounter64 then .ok (.uint64V (decodeUnsignedInteger valData))
  else if valType = TypeNoSuchObject ∨ valType = TypeNoSuchInstance ∨ valType = TypeEndOfMibView then
    .ok .nil
  else .ok (.bytesV valData)

/-- Go `decodeVariable`: a SEQUENCE holding an OBJECT IDENTIFIER TLV (decoded
through `decodeOID`) followed by the value TLV. -/
def decodeVariable (data : List Nat) : Except String Variable :=
  match decodeTLV data with
  | .error e => .error e
  | .ok (seqType, seqData, _) =>
    if seqType ≠ TypeSequence then .error "expected sequence"
    else
      match decodeTLV seqData with
      | .error e => .error e
      | .ok (oidType, oidData, rest) =>
        if oidType ≠ TypeObjectIdentifier then .error "expected OID"
        else
          match decodeOID oidData with
          | .error e => .error e
          | .ok oid =>
            match decodeTLV rest with
            | .error e => .error e
            | .ok (valType, valData, _) =>
              match decodeValue valType valData with
              | .error e => .error e
              | .ok value => .ok ⟨oid, valType, value⟩

/-- Go loop of `encodeVariableBindings` over the variables, concatenating
each varbind encoding and failing on the first bad variable. -/
def encodeVariableBindingsAux : List Variable → Except String (List Nat)
  | [] => .ok []
  | v :: rest =>
    match encodeVariable v with
    | .error e => .error e
    | .ok b =>
      match encodeVariableBindingsAux rest with
      | .error e => .error e
      | .ok bs => .ok (b ++ bs)

/-- Go `encodeVariableBindings`: the varbind encodings wrapped in a
SEQUENCE. -/
def encodeVariableBindings (vars : List Variable) : Except String (List Nat) :=
  match encodeVariableBindingsAux vars with
  | .error e => .error e
  | .ok bs => .ok (encodeTLV TypeSequence bs)

/-- Go `ErrorStatus` constant `NoError`. -/
def NoError : Int := 0

/-- Go `ErrorStatus` constant `NoSuchName` (v1 end-of-tree signal). -/
def NoSuchName : Int := 2

/-- Go `PDU` from protocol.go. The field `Type` is renamed `pType`; the
request id is a Go int32, error status and index Go ints, modelled as
`Int`. -/
structure PDU where
  pType : Nat
  requestID : Int
  errorStatus : Int
  errorIndex : Int
  vars : List Variable
  nonRepeaters : Int
  maxRepetitions : Int
deriving DecidableEq

/-- Go `PDU.Encode`: request id, then either non-repeaters and
max-repetitions (GET-BULK) or error status and index, then the varbind
list, wrapped in the PDU tag. -/
def PDU.encode (p : PDU) : Except String (List Nat) :=
  let header :=
    encodeTLV TypeInteger (encodeInteger p.requestID) ++
      (if p.pType = TypeGetBulkRequest then
        encodeTLV TypeInteger (encodeInteger p.nonRepeaters) ++
          encodeTLV TypeInteger (encodeInteger p.maxRepetitions)
      else
        encodeTLV TypeInteger (encodeInteger p.errorStatus) ++
          encodeTLV TypeInteger (encodeInteger p.errorIndex))
  match encodeVariableBindings p.vars with
  | .error e => .error e
  | .ok vbs => .ok (encodeTLV p.pType (header ++ vbs))

/-- Go `SNMPVersion` constants from version.go. -/
def Version1 : Int := 0

/-- SNMP v2c wire version. -/
def Version2c : Int := 1

/-- SNMP v3 wire version. -/
def Version3 : Int := 3

/-- Go `Message`: version, community, PDU. The community string is modelled
by its bytes, which is what the encoder writes. -/
structure Message where
  version : Int
  community : List Nat
  pdu : PDU
deriving DecidableEq

/-- Go `Message.Encode`: version INTEGER, community OCTET STRING and the
encoded PDU, wrapped in a SEQUENCE. -/
def Message.encode (m : Message) : Except String (List Nat) :=
  match m.pdu.encode with
  | .error e => .error e
  | .ok pduBytes =>
    .ok (encodeTLV TypeSequence
      (encodeTLV TypeInteger (encodeInteger m.version) ++
        encodeTLV TypeOctetString m.community ++ pduBytes))

/-- Go `strconv.Atoi` restricted to unsigned decimal digit strings (over the
character list of the string), the only shape the OID claims exercise; any
other string is a parse failure, as it is in the source (a negative
component is likewise rejected there by the explicit `n < 0` check). -/
def parseNat (cs : List Char) : Option Nat :=
  if cs = [] then none
  else
    cs.foldl
      (fun acc c =>
        match acc with
        | none => none
        | some n => if c.isDigit then some (n * 10 + (c.toNat - 48)) else none)
      (some 0)

/-- Go `strings.Split` on the dot separator, over the character list: one
part per dot-separated run, keeping empty parts, at least one part. -/
def splitDots : List Char → List (List Char)
  | [] => [[]]
  | c :: rest =>
    if c = Char.ofNat 46 then [] :: splitDots rest
    else
      match splitDots rest with
      | [] => [[c]]
      | h :: t => (c :: h) :: t

/-- Go loop of `ParseOID` over the dot-separated parts, failing on the first
component that does not parse. -/
def parseComponents : List (List Char) → Except String (List Nat)
  | [] => .ok []
  | p :: rest =>
    match parseNat p with
    | none => .error "invalid OID component"
    | some n =>
      match parseComponents rest with
      | .error e => .error e
      | .ok ns => .ok (n :: ns)

/-- Go `ParseOID`: rejects the empty string, strips one leading dot
(`strings.TrimPrefix`), splits on dots and parses every component. No
minimum component count is enforced. -/
def ParseOID (s : String) : Except String OID :=
  if s = "" then .error "snmp: invalid OID"
  else
    let cs := s.toList
    let cs2 := if cs.headD (Char.ofNat 32) = Char.ofNat 46 then cs.tail else cs
    parseComponents (splitDots cs2)

/-- Go `OID.HasPrefix`: the receiver starts with the given prefix. -/
def OID.HasPrefix (o : OID) (p : OID) : Bool :=
  if p.length > o.length then false
  else (p.zip o).all fun ab => ab.1 == ab.2

/-- Go `ConnectionState` from types.go. -/
inductive ConnectionState where
  | StateDisconnected
  | StateConnecting
  | StateConnected
  | StateDisconnecting
deriving DecidableEq

/-- The configuration fields of Go `ClientOptions` that the claims touch:
version, community, retry count and the walk bulk parameters. Retries is a
non-negative count (the default is 3). -/
structure ClientOptions where
  version : Int
  community : List Nat
  retries : Nat
  nonRepeaters : Int
  maxRepetitions : Int
deriving DecidableEq

/-- The Go `Client` state a caller can observe across one operation: the
options, the connection state, the request-id counter and the pending table
(as the list of registered request ids). Within `sendRequest` the pending
entry is inserted on entry and removed by a defer on every exit, so the
table an operation returns equals the one it received. -/
structure Client where
  opts : ClientOptions
  connState : ConnectionState
  requestID : Int
  pending : List Int
deriving DecidableEq

/-- Go `nextRequestID`: increment the int32 counter (wrapping) and reset to
1 when it leaves the positive range. Returns the updated client and the
allocated id. -/
def nextRequestID (c : Client) : Client × Int :=
  let r0 := wrap32 (c.requestID + 1)
  let r := if r0 ≤ 0 then 1 else r0
  ({ c with requestID := r }, r)

/-- The errors an operation can surface, mirroring errors.go. The sentinel
values ErrEndOfMIB, ErrNoSuchObject and ErrNoSuchInstance exist in the
source but are never produced by the request path; `snmpError` is the
structured `SNMPError{Status, Index, RequestOID}` and `goError` a
fmt.Errorf message. -/
inductive SnmpErr where
  | errNotConnected
  | errClientClosed
  | errTimeout
  | errEndOfMIB
  | errNoSuchObject
  | errNoSuchInstance
  | encodeFailed (msg : String)
  | snmpError (status : Int) (index : Int) (oid : OID)
  | goError (msg : String)
deriving DecidableEq

/-- Go `IsEndOfMIB`, i.e. `errors.Is(err, ErrEndOfMIB)`. `SNMPError` defines
no `Is` or `Unwrap` method, so only the sentinel itself matches; a
structured `snmpError` never does, whatever its status. -/
def IsEndOfMIB : SnmpErr → Bool
  | .errEndOfMIB => true
  | _ => false

/-- Go `IsNoSuchObject`, i.e. `errors.Is(err, ErrNoSuchObject)`. -/
def IsNoSuchObject : SnmpErr → Bool
  | .errNoSuchObject => true
  | _ => false

/-- Go `IsNoSuchInstance`, i.e. `errors.Is(err, ErrNoSuchInstance)`. -/
def IsNoSuchInstance : SnmpErr → Bool
  | .errNoSuchInstance => true
  | _ => false

/-- Go `NewGetRequest`: a GET PDU whose varbinds are the OIDs with NULL
values. -/
def NewGetRequest (requestID : Int) (oids : List OID) : PDU :=
  { pType := TypeGetRequest, requestID := requestID, errorStatus := 0, errorIndex := 0,
    vars := oids.map fun oid => ⟨oid, TypeNull, .nil⟩,
    nonRepeaters := 0, maxRepetitions := 0 }

/-- Go `NewGetNextRequest`. -/
def NewGetNextRequest (requestID : Int) (oids : List OID) : PDU :=
  { pType := TypeGetNextRequest, requestID := requestID, errorStatus := 0, errorIndex := 0,
    vars := oids.map fun oid => ⟨oid, TypeNull, .nil⟩,
    nonRepeaters := 0, maxRepetitions := 0 }

/-- Go `NewGetBulkRequest`. -/
def NewGetBulkRequest (requestID : Int) (nonRepeaters maxRepetitions : Int) (oids : List OID) : PDU :=
  { pType := TypeGetBulkRequest, requestID := requestID, errorStatus := 0, errorIndex := 0,
    vars := oids.map fun oid => ⟨oid, TypeNull, .nil⟩,
    nonRepeaters := nonRepeaters, maxRepetitions := maxRepetitions }

/-- Go `NewSetRequest`. -/
def NewSetRequest (requestID : Int) (vars : List Variable) : PDU :=
  { pType := TypeSetRequest, requestID := requestID, errorStatus := 0, errorIndex := 0,
    vars := vars, nonRepeaters := 0, maxRepetitions := 0 }

/-- Placeholder variable used only as the default of list indexing. -/
def defaultVar : Variable := ⟨[], 0, .nil⟩

/-- The network, seen from one pending slot: for each send attempt, the PDU
that the read loop delivers to the slot during the wait (already matched by
request id, as the dispatcher does) or `none` when the wait times out. The
`Nat` index is a global attempt counter threaded through the run. -/
abbrev Net := Nat → Option PDU

/-- What one operation did: the client state on return, the next attempt
index, every datagram written to the socket in order, and the returned PDU
or error. -/
structure SendOutcome where
  client : Client
  pos : Nat
  sent : List (List Nat)
  result : Except SnmpErr PDU
deriving DecidableEq

/-- The retry loop of Go `sendRequest` (`for retry := 0; retry <= Retries`):
each iteration writes the already-encoded datagram, then waits on the
response slot. A delivered PDU with a non-zero error status yields the
structured SNMPError (with the request varbind the 1-based error index
points at, when in range); a zero status yields the PDU; an empty slot is a
timeout and the next iteration resends the same bytes. When every attempt
has timed out the loop ends with ErrTimeout as the last error. -/
def attemptLoop (data : List Nat) (reqVars : List Variable) (net : Net) :
    Nat → Nat → List (List Nat) × Nat × Except SnmpErr PDU
  | 0, pos => ([], pos, .error .errTimeout)
  | n + 1, pos =>
    match net pos with
    | some resp =>
      if resp.errorStatus ≠ NoError then
        let oid :=
          if 0 < resp.errorIndex ∧ resp.errorIndex ≤ reqVars.length then
            (reqVars.getD (resp.errorIndex - 1).toNat defaultVar).oid
          else []
        ([data], pos + 1, .error (.snmpError resp.errorStatus resp.errorIndex oid))
      else ([data], pos + 1, .ok resp)
    | none =>
      let r := attemptLoop data reqVars net n (pos + 1)
      (data :: r.1, r.2.1, r.2.2)

/-- Go `Client.sendRequest`: refuse when not connected, register the pending
slot (removed again by the defer, so the returned client is unchanged),
encode the message once, then run the retry loop on those bytes. -/
def sendRequest (c : Client) (net : Net) (pos : Nat) (pdu : PDU) : SendOutcome :=
  if c.connState ≠ .StateConnected then ⟨c, pos, [], .error .errNotConnected⟩
  else
    match Message.encode ⟨c.opts.version, c.opts.community, pdu⟩ with
    | .error e => ⟨c, pos, [], .error (.encodeFailed e)⟩
    | .ok data =>
      let r := attemptLoop data pdu.vars net (c.opts.retries + 1) pos
      ⟨c, r.2.1, r.1, r.2.2⟩

/-- Outcome of a facade operation: like `SendOutcome` but returning the
response varbind list, as Get/GetNext/GetBulk/Set do. -/
structure OpOutcome where
  client : Client
  pos : Nat
  sent : List (List Nat)
  result : Except SnmpErr (List Variable)
deriving DecidableEq

/-- Go `Client.Get`: allocate a request id, build the GET PDU, send it and
return the response varbinds. No emptiness check is made on `oids`. -/
def Client.Get (c : Client) (net : Net) (pos : Nat) (oids : List OID) : OpOutcome :=
  let a := nextRequestID c
  let out := sendRequest a.1 net pos (NewGetRequest a.2 oids)
  ⟨out.client, out.pos, out.sent, out.result.map (·.vars)⟩

/-- Go `Client.GetNext`. -/
def Client.GetNext (c : Client) (net : Net) (pos : Nat) (oids : List OID) : OpOutcome :=
  let a := nextRequestID c
  let out := sendRequest a.1 net pos (NewGetNextRequest a.2 oids)
  ⟨out.client, out.pos, out.sent, out.result.map (·.vars)⟩

/-- Go `Client.GetBulk`: when the configured version is v1 the call returns
the error at once, before a request id is allocated, a message encoded or a
datagram written. -/
def Client.GetBulk (c : Client) (net : Net) (pos : Nat) (nonRepeaters maxRepetitions : Int)
    (oids : List OID) : OpOutcome :=
  if c.opts.version = Version1 then
    ⟨c, pos, [], .error (.goError "snmp: GetBulk not supported in SNMPv1")⟩
  else
    let a := nextRequestID c
    let out := sendRequest a.1 net pos (NewGetBulkRequest a.2 nonRepeaters maxRepetitions oids)
    ⟨out.client, out.pos, out.sent, out.result.map (·.vars)⟩

/-- Go `Client.Set`. -/
def Client.Set (c : Client) (net : Net) (pos : Nat) (vars : List Variable) : OpOutcome :=
  let a := nextRequestID c
  let out := sendRequest a.1 net pos (NewSetRequest a.2 vars)
  ⟨out.client, out.pos, out.sent, out.result.map (·.vars)⟩

/-- The exception-marker test of the walk loops, in source order:
endOfMibView, noSuchObject, noSuchInstance. -/
def isWalkException (t : Nat) : Bool :=
  t == TypeEndOfMibView || t == TypeNoSuchObject || t == TypeNoSuchInstance

/-- Inner loop of Go `Client.Walk` over one returned batch: stop without
reporting on the first varbind that leaves the root subtree or is an
exception marker, otherwise append it. Returns the grown result list and
whether the walk stopped. (The cursor assignment inside this loop is dead
in the source: on a full batch it is overwritten by the post-loop update.) -/
def walkVars (root : OID) : List Variable → List Variable → List Variable × Bool
  | [], acc => (acc, false)
  | v :: rest, acc =>
    if !OID.HasPrefix v.oid root then (acc, true)
    else if isWalkException v.vType then (acc, true)
    else walkVars root rest (acc ++ [v])

/-- Result of a walk: the reported varbinds and, for a finished walk, the
error returned with them (`none` when the walk ended normally). `outOfFuel`
marks a run that was still looping when the step budget ran out. -/
inductive WalkRes where
  | done (vars : List Variable) (err : Option SnmpErr)
  | outOfFuel (vars : List Variable)
deriving DecidableEq

/-- Varbinds a walk reported, whether or not it finished. -/
def WalkRes.vars : WalkRes → List Variable
  | .done vs _ => vs
  | .outOfFuel vs => vs

/-- Whether the walk was still looping when the fuel ran out. -/
def WalkRes.isOutOfFuel : WalkRes → Bool
  | .outOfFuel _ => true
  | _ => false

/-- Outer loop of Go `Client.Walk`, one fuel unit per iteration (the source
loop is unbounded). Issue GET-NEXT (v1) or GET-BULK (otherwise) at the
cursor; treat IsEndOfMIB / IsNoSuchObject / IsNoSuchInstance errors and an
empty batch as normal termination; propagate any other error; process the
batch and, when it was fully accepted, move the cursor to the first (v1) or
last returned OID and loop. No progress check is made on the new cursor. -/
def walkLoop (root : OID) (net : Net) : Nat → Client → Nat → OID → List Variable → WalkRes
  | 0, _, _, _, acc => .outOfFuel acc
  | fuel + 1, c, pos, cursor, acc =>
    let q :=
      if c.opts.version = Version1 then Client.GetNext c net pos [cursor]
      else Client.GetBulk c net pos c.opts.nonRepeaters c.opts.maxRepetitions [cursor]
    match q.result with
    | .error e =>
      if IsEndOfMIB e || IsNoSuchObject e || IsNoSuchInstance e then .done acc none
      else .done acc (some e)
    | .ok vars =>
      if vars.length = 0 then .done acc none
      else
        let pr := walkVars root vars acc
        if pr.2 then .done pr.1 none
        else
          let cursor2 :=
            if c.opts.version = Version1 then (vars.headD defaultVar).oid
            else (vars.getLastD defaultVar).oid
          walkLoop root net fuel q.client q.pos cursor2 pr.1

/-- Go `Client.Walk`: run the loop from the root with an empty result
list. -/
def Client.Walk (c : Client) (net : Net) (pos : Nat) (rootOID : OID) (fuel : Nat) : WalkRes :=
  walkLoop rootOID net fuel c pos rootOID []

/-- Inner loop of Go `Client.WalkFunc` over one batch: same guards as the
Walk inner loop, but each accepted varbind is passed to `fn` (recorded in
the trace); a non-nil error from `fn` aborts the walk with that error.
Returns the trace and `none` for a fully processed batch, `some none` for a
guard stop, `some (some e)` when `fn` failed. -/
def walkFnVars (root : OID) (fn : Variable → Option SnmpErr) :
    List Variable → List Variable → List Variable × Option (Option SnmpErr)
  | [], trace => (trace, none)
  | v :: rest, trace =>
    if !OID.HasPrefix v.oid root then (trace, some none)
    else if isWalkException v.vType then (trace, some none)
    else
      match fn v with
      | some e => (trace ++ [v], some (some e))
      | none => walkFnVars root fn rest (trace ++ [v])

/-- Result of a WalkFunc run: the varbinds passed to the callback and the
returned error, or `outOfFuel` for a run still looping at the budget. -/
inductive WalkFnRes where
  | done (trace : List Variable) (err : Option SnmpErr)
  | outOfFuel (trace : List Variable)
deriving DecidableEq

/-- Varbinds the callback received, whether or not the walk finished. -/
def WalkFnRes.trace : WalkFnRes → List Variable
  | .done tr _ => tr
  | .outOfFuel tr => tr

/-- Outer loop of Go `Client.WalkFunc`, structured like the Walk loop. -/
def walkFnLoop (root : OID) (net : Net) (fn : Variable → Option SnmpErr) :
    Nat → Client → Nat → OID → List Variable → WalkFnRes
  | 0, _, _, _, trace => .outOfFuel trace
  | fuel + 1, c, pos, cursor, trace =>
    let q :=
      if c.opts.version = Version1 then Client.GetNext c net pos [cursor]
      else Client.GetBulk c net pos c.opts.nonRepeaters c.opts.maxRepetitions [cursor]
    match q.result with
    | .error e =>
      if IsEndOfMIB e || IsNoSuchObject e || IsNoSuchInstance e then .done trace none
      else .done trace (some e)
    | .ok vars =>
      if vars.length = 0 then .done trace none
      else
        let pr := walkFnVars root fn vars trace
        match pr.2 with
        | some stop => .done pr.1 stop
        | none =>
          let cursor2 :=
            if c.opts.version = Version1 then (vars.headD defaultVar).oid
            else (vars.getLastD defaultVar).oid
          walkFnLoop root net fn fuel q.client q.pos cursor2 pr.1

/-- Go `Client.WalkFunc`. -/
def Client.WalkFunc (c : Client) (net : Net) (pos : Nat) (rootOID : OID)
    (fn : Variable → Option SnmpErr) (fuel : Nat) : WalkFnRes :=
  walkFnLoop rootOID net fn fuel c pos rootOID []

/-! ## Concrete fixtures used by witnesses and counterexamples -/

/-- Options of a v2c client: community "public", 2 retries, walk bulk
parameters 0 and 10 (the defaults). -/
def optsV2 : ClientOptions := ⟨Version2c, [112, 117, 98, 108, 105, 99], 2, 0, 10⟩

/-- Options of a v1 client, otherwise like `optsV2`. -/
def optsV1 : ClientOptions := ⟨Version1, [112, 117, 98, 108, 105, 99], 2, 0, 10⟩

/-- A connected v2c client. -/
def clientV2 : Client := ⟨optsV2, .StateConnected, 41, []⟩

/-- A connected v1 client. -/
def clientV1 : Client := ⟨optsV1, .StateConnected, 41, []⟩

/-- A GET request for sysDescr.0 with request id 42. -/
def getPdu : PDU := NewGetRequest 42 [[1, 3, 6, 1, 2, 1, 1, 1, 0]]

/-- The encoded bytes of `getPdu` inside a v2c "public" message. -/
def getData : List Nat :=
  match Message.encode ⟨Version2c, [112, 117, 98, 108, 105, 99], getPdu⟩ with
  | .ok d => d
  | .error _ => []

/-- A response PDU carrying the v1 noSuchName error status. -/
def respNoSuchName : PDU := ⟨TypeGetResponse, 42, NoSuchName, 0, [], 0, 0⟩

/-- A leaf varbind strictly under the root 1.3.6. -/
def varLeaf : Variable := ⟨[1, 3, 6, 1], TypeInteger, .intV 1⟩

/-- A response delivering just `varLeaf`, with no error. -/
def respLeaf : PDU := ⟨TypeGetResponse, 42, 0, 0, [varLeaf], 0, 0⟩

/-- An endOfMibView marker varbind under the root 1.3.6. -/
def varEndView : Variable := ⟨[1, 3, 6, 2], TypeEndOfMibView, .nil⟩

/-- A response delivering just `varEndView`. -/
def respEndView : PDU := ⟨TypeGetResponse, 42, 0, 0, [varEndView], 0, 0⟩

/-- A network answering the first request with `respLeaf` and every later
one with `respEndView`. -/
def netLeafThenEnd : Net := fun p => if p = 0 then some respLeaf else some respEndView

/-- A response with no varbinds and no error. -/
def respEmptyOk : PDU := ⟨TypeGetResponse, 42, 0, 0, [], 0, 0⟩

/-- A varbind whose type tag is the noSuchObject exception marker. -/
def varException : Variable := ⟨[1, 3, 6, 1], TypeNoSuchObject, .nil⟩

/-! ## Lemmas about the base-128 digit loop -/

theorem oidDigitsAux_zero (f : Nat) : oidDigitsAux f 0 = [] := by
  cases f <;> simp [oidDigitsAux]

theorem oidDigitsAux_stable (f1 : Nat) : ∀ f2 v, v ≤ f1 → v ≤ f2 →
    oidDigitsAux f1 v = oidDigitsAux f2 v := by
  induction f1 with
  | zero =>
    intro f2 v hv _
    interval_cases v
    simp [oidDigitsAux_zero]
  | succ k ih =>
    intro f2 v h1 h2
    cases f2 with
    | zero =>
      interval_cases v
      simp [oidDigitsAux_zero]
    | succ l =>
      by_cases hv : v = 0
      · subst hv; simp [oidDigitsAux]
      · have hd : v / 128 < v := Nat.div_lt_self (Nat.pos_of_ne_zero hv) (by omega)
        simp only [oidDigitsAux, if_neg hv]
        rw [ih l (v / 128) (by omega) (by omega)]

theorem oidDigits_eq (v : Nat) (hv : v ≠ 0) :
    oidDigits v = oidDigits (v / 128) ++ [v % 128] := by
  obtain ⟨w, rfl⟩ := Nat.exists_eq_succ_of_ne_zero hv
  have hd : (w + 1) / 128 < w + 1 := Nat.div_lt_self (by omega) (by omega)
  show oidDigitsAux (w + 1) (w + 1) = _
  simp only [oidDigitsAux, if_neg hv]
  rw [oidDigitsAux_stable w ((w + 1) / 128) ((w + 1) / 128) (by omega) le_rfl]
  rfl

theorem oidDigits_lt (v : Nat) : ∀ d ∈ oidDigits v, d < 128 := by
  induction v using Nat.strong_induction_on with
  | _ v ih =>
    by_cases hv : v = 0
    · subst hv
      intro d hd
      simp [oidDigits, oidDigitsAux_zero] at hd
    · rw [oidDigits_eq v hv]
      intro d hd
      rcases List.mem_append.1 hd with h | h
      · exact ih (v / 128) (Nat.div_lt_self (Nat.pos_of_ne_zero hv) (by omega)) d h
      · simp at h
        omega

theorem oidDigits_ne_nil (v : Nat) (hv : v ≠ 0) : oidDigits v ≠ [] := by
  rw [oidDigits_eq v hv]
  simp

theorem oidDigits_foldl (v : Nat) : ∀ acc : Nat,
    (oidDigits v).foldl (fun a d => a * 128 + d) acc =
      acc * 128 ^ (oidDigits v).length + v := by
  induction v using Nat.strong_induction_on with
  | _ v ih =>
    intro acc
    by_cases hv : v = 0
    · subst hv
      simp [oidDigits, oidDigitsAux_zero]
    · rw [oidDigits_eq v hv]
      rw [List.foldl_append]
      rw [ih (v / 128) (Nat.div_lt_self (Nat.pos_of_ne_zero hv) (by omega)) acc]
      simp only [List.foldl_cons, List.foldl_nil, List.length_append, List.length_singleton]
      rw [pow_succ]
      have := Nat.div_add_mod v 128
      ring_nf
      omega

/-! ## The OID round trip -/

theorem decodeOIDLoop_setHighBits (ds : List Nat) : ∀ (tail : List Nat) (acc : Nat),
    ds ≠ [] → (∀ d ∈ ds, d < 128) →
    decodeOIDLoop (setHighBits ds ++ tail) acc =
      ds.foldl (fun a d => a * 128 + d) acc :: decodeOIDLoop tail 0 := by
  induction ds with
  | nil => intro _ _ h _; exact absurd rfl h
  | cons d rest ih =>
    intro tail acc _ hlt
    have hd : d < 128 := hlt d (by simp)
    cases rest with
    | nil =>
      simp only [setHighBits, List.cons_append, List.nil_append, decodeOIDLoop, List.foldl_cons,
        List.foldl_nil]
      rw [Nat.mod_eq_of_lt hd, if_pos hd]
      simp
    | cons d2 rest2 =>
      show decodeOIDLoop ((d + 128) :: (setHighBits (d2 :: rest2) ++ tail)) acc = _
      simp only [decodeOIDLoop]
      rw [if_neg (by omega)]
      have hm : (d + 128) % 128 = d := by omega
      rw [hm]
      rw [ih tail (acc * 128 + d) (by simp) (fun x hx => hlt x (by simp [hx]))]
      simp [List.foldl_cons]

theorem decodeOIDLoop_component (v : Nat) (tail : List Nat) :
    decodeOIDLoop (encodeOIDComponent v ++ tail) 0 = v :: decodeOIDLoop tail 0 := by
  by_cases hv : v < 128
  · simp only [encodeOIDComponent, if_pos hv, List.cons_append, List.nil_append, decodeOIDLoop]
    rw [Nat.mod_eq_of_lt hv]
    simp
  · simp only [encodeOIDComponent, if_neg hv]
    rw [decodeOIDLoop_setHighBits (oidDigits v) tail 0 (oidDigits_ne_nil v (by omega))
      (oidDigits_lt v)]
    rw [oidDigits_foldl v 0]
    simp

theorem decodeOIDLoop_encodeOIDRest (l : List Nat) :
    decodeOIDLoop (encodeOIDRest l) 0 = l := by
  induction l with
  | nil => rfl
  | cons c rest ih =>
    show decodeOIDLoop (encodeOIDComponent c ++ encodeOIDRest rest) 0 = _
    rw [decodeOIDLoop_component, ih]

/-- C1: decoding the BER encoding of an OID returns the OID unchanged,
components above 128 included, provided the OID has at least two components,
the first is at most 2 and the second at most 39. (The claim as frozen also
admits OIDs with one component, and a second component above 39 whenever the
first is 2; both families fail to round-trip, see the counterexample.) -/
theorem decodeOID_encodeOID (a b : Nat) (rest : List Nat) (ha : a ≤ 2) (hb : b ≤ 39) :
    decodeOID (encodeOID (a :: b :: rest)) = Except.ok (a :: b :: rest) := by
  show decodeOID ((40 * a + b) % 256 :: encodeOIDRest rest) = _
  have h256 : (40 * a + b) % 256 = 40 * a + b := Nat.mod_eq_of_lt (by omega)
  simp only [decodeOID, h256]
  rw [decodeOIDLoop_encodeOIDRest]
  have hdiv : (40 * a + b) / 40 = a := by omega
  have hmod : (40 * a + b) % 40 = b := by omega
  rw [hdiv, hmod]

/-- C1 counterexample: the OID 2.48 satisfies every constraint the claim
states (non-empty, first component 2, no bound on the second when the first
is 2), yet it decodes to 3.8 after encoding: the first encoded byte is
2*40+48 = 128, and the decoder splits 128 as 128/40 = 3 and 128%40 = 8. -/
theorem decodeOID_encodeOID_cex : decodeOID (encodeOID [2, 48]) ≠ Except.ok [2, 48] := by
  decide

/-- C1 witness: a concrete OID with a component above 128 round-trips. -/
theorem decodeOID_encodeOID_witness :
    decodeOID (encodeOID [1, 3, 6, 1, 4, 1, 300, 0]) = Except.ok [1, 3, 6, 1, 4, 1, 300, 0] :=
  decodeOID_encodeOID 1 3 [6, 1, 4, 1, 300, 0] (by decide) (by decide)

/-- C7: decodeLength accepts short-form lengths and long-form lengths and
rejects a long form with more than 4 length bytes, but the indefinite-length
marker 0x80 is not rejected: it falls through the long-form path with a
zero byte count and decodes as length 0 with no error, contradicting the
claim. -/
theorem decodeLength_indefinite : decodeLength [128] = Except.ok (0, []) ∧
    decodeLength [133, 1, 2, 3, 4, 5] = Except.error "length too large" ∧
    decodeLength [130, 1, 0] = Except.ok (256, []) ∧
    decodeLength [127] = Except.ok (127, []) := by
  decide

/-! ## Retry behaviour of sendRequest -/

theorem attemptLoop_timeout (data : List Nat) (reqVars : List Variable) (net : Net)
    (hnet : ∀ i, net i = none) : ∀ (n pos : Nat),
    attemptLoop data reqVars net n pos = (List.replicate n data, pos + n, .error .errTimeout) := by
  intro n
  induction n with
  | zero => intro pos; simp [attemptLoop]
  | succ m ih =>
    intro pos
    simp only [attemptLoop, hnet pos, ih (pos + 1), List.replicate_succ, Prod.mk.injEq]
    refine ⟨trivial, by omega, trivial⟩

/-- C2: with `Retries = R` and a network that never answers, one call to
sendRequest writes exactly R+1 datagrams, all equal to the bytes encoded
once before the first attempt, and fails with the Timeout error after the
last attempt. -/
theorem sendRequest_timeout (c : Client) (net : Net) (pos : Nat) (pdu : PDU) (data : List Nat)
    (hconn : c.connState = .StateConnected)
    (henc : Message.encode ⟨c.opts.version, c.opts.community, pdu⟩ = .ok data)
    (hnet : ∀ i, net i = none) :
    (sendRequest c net pos pdu).sent = List.replicate (c.opts.retries + 1) data ∧
      (sendRequest c net pos pdu).result = .error .errTimeout := by
  simp only [sendRequest, hconn, henc, attemptLoop_timeout data pdu.vars net hnet]
  simp

/-- C2 witness: the v2c client with 2 retries sends 3 identical datagrams
and times out. -/
theorem sendRequest_timeout_witness :
    (sendRequest clientV2 (fun _ => none) 0 getPdu).sent =
        List.replicate (clientV2.opts.retries + 1) getData ∧
      (sendRequest clientV2 (fun _ => none) 0 getPdu).result = .error .errTimeout :=
  sendRequest_timeout clientV2 (fun _ => none) 0 getPdu getData rfl rfl (fun _ => rfl)

/-! ## GET-BULK version gate -/

/-- C3: on a client configured for v1, GetBulk returns the error at once:
no request id is allocated, no message encoded, no datagram written, and
the returned client state (request-id counter and pending table included)
is the one the call received. -/
theorem getBulk_v1_rejected (c : Client) (net : Net) (pos : Nat)
    (nonRepeaters maxRepetitions : Int) (oids : List OID) (hv : c.opts.version = Version1) :
    Client.GetBulk c net pos nonRepeaters maxRepetitions oids =
      ⟨c, pos, [], .error (.goError "snmp: GetBulk not supported in SNMPv1")⟩ := by
  simp [Client.GetBulk, hv]

/-- C3 witness: the concrete v1 client is rejected with its state intact. -/
theorem getBulk_v1_rejected_witness :
    Client.GetBulk clientV1 netLeafThenEnd 0 0 10 [[1, 3, 6]] =
      ⟨clientV1, 0, [], .error (.goError "snmp: GetBulk not supported in SNMPv1")⟩ :=
  getBulk_v1_rejected clientV1 netLeafThenEnd 0 0 10 [[1, 3, 6]] rfl

/-! ## The walk prefix and exception invariant -/

theorem walkVars_sound (root : OID) : ∀ (vs acc : List Variable),
    (∀ v ∈ acc, OID.HasPrefix v.oid root = true ∧ isWalkException v.vType = false) →
    ∀ v ∈ (walkVars root vs acc).1,
      OID.HasPrefix v.oid root = true ∧ isWalkException v.vType = false := by
  intro vs
  induction vs with
  | nil => intro acc hacc; simpa [walkVars] using hacc
  | cons v rest ih =>
    intro acc hacc
    by_cases h1 : OID.HasPrefix v.oid root
    · by_cases h2 : isWalkException v.vType
      · simpa [walkVars, h1, h2] using hacc
      · simp only [walkVars, h1, Bool.not_true, Bool.false_eq_true, if_false,
          h2, if_false]
        apply ih
        intro x hx
        rcases List.mem_append.1 hx with h | h
        · exact hacc x h
        · simp at h
          subst h
          exact ⟨h1, by simpa using h2⟩
    · simpa [walkVars, h1] using hacc

theorem walkFnVars_sound (root : OID) (fn : Variable → Option SnmpErr) :
    ∀ (vs trace : List Variable),
    (∀ v ∈ trace, OID.HasPrefix v.oid root = true ∧ isWalkException v.vType = false) →
    ∀ v ∈ (walkFnVars root fn vs trace).1,
      OID.HasPrefix v.oid root = true ∧ isWalkException v.vType = false := by
  intro vs
  induction vs with
  | nil => intro trace htr; simpa [walkFnVars] using htr
  | cons v rest ih =>
    intro trace htr
    by_cases h1 : OID.HasPrefix v.oid root
    · by_cases h2 : isWalkException v.vType
      · simpa [walkFnVars, h1, h2] using htr
      · have hmem : ∀ x ∈ trace ++ [v],
            OID.HasPrefix x.oid root = true ∧ isWalkException x.vType = false := by
          intro x hx
          rcases List.mem_append.1 hx with h | h
          · exact htr x h
          · simp at h
            subst h
            exact ⟨h1, by simpa using h2⟩
        cases hfn : fn v with
        | some e => simpa [walkFnVars, h1, h2, hfn] using hmem
        | none =>
          simp only [walkFnVars, h1, Bool.not_true, Bool.false_eq_true, if_false, h2, hfn]
          exact ih (trace ++ [v]) hmem
    · simpa [walkFnVars, h1] using htr

theorem walkLoop_sound (root : OID) (net : Net) : ∀ (fuel : Nat) (c : Client) (pos : Nat)
    (cursor : OID) (acc : List Variable),
    (∀ v ∈ acc, OID.HasPrefix v.oid root = true ∧ isWalkException v.vType = false) →
    ∀ v ∈ (walkLoop root net fuel c pos cursor acc).vars,
      OID.HasPrefix v.oid root = true ∧ isWalkException v.vType = false := by
  intro fuel
  induction fuel with
  | zero => intro c pos cursor acc hacc; simpa [walkLoop, WalkRes.vars] using hacc
  | succ n ih =>
    intro c pos cursor acc hacc
    simp only [walkLoop]
    split
    · split
      · simpa [WalkRes.vars] using hacc
      · simpa [WalkRes.vars] using hacc
    · split
      · simpa [WalkRes.vars] using hacc
      · split
        · simpa [WalkRes.vars] using walkVars_sound root _ acc hacc
        · exact ih _ _ _ _ (walkVars_sound root _ acc hacc)

theorem walkFnLoop_sound (root : OID) (net : Net) (fn : Variable → Option SnmpErr) :
    ∀ (fuel : Nat) (c : Client) (pos : Nat) (cursor : OID) (trace : List Variable),
    (∀ v ∈ trace, OID.HasPrefix v.oid root = true ∧ isWalkException v.vType = false) →
    ∀ v ∈ (walkFnLoop root net fn fuel c pos cursor trace).trace,
      OID.HasPrefix v.oid root = true ∧ isWalkException v.vType = false := by
  intro fuel
  induction fuel with
  | zero => intro c pos cursor trace htr; simpa [walkFnLoop, WalkFnRes.trace] using htr
  | succ n ih =>
    intro c pos cursor trace htr
    simp only [walkFnLoop]
    split
    · split
      · simpa [WalkFnRes.trace] using htr
      · simpa [WalkFnRes.trace] using htr
    · split
      · simpa [WalkFnRes.trace] using htr
      · split
        · simpa [WalkFnRes.trace] using walkFnVars_sound root fn _ trace htr
        · exact ih _ _ _ _ (walkFnVars_sound root fn _ trace htr)

/-- C4: every varbind a Walk appends to its result list, and every varbind
a WalkFunc passes to its callback, lies under the root
(`OID.HasPrefix v.oid root`) and is not an exception marker; a varbind
failing either check stops the walk unreported. This holds for any network
behaviour, any fuel and any callback. -/
theorem walk_reported_under_root (c : Client) (net : Net) (pos : Nat) (root : OID)
    (fuel : Nat) (fn : Variable → Option SnmpErr) :
    (∀ v ∈ (Client.Walk c net pos root fuel).vars,
        OID.HasPrefix v.oid root = true ∧ isWalkException v.vType = false) ∧
      ∀ v ∈ (Client.WalkFunc c net pos root fn fuel).trace,
        OID.HasPrefix v.oid root = true ∧ isWalkException v.vType = false := by
  constructor
  · exact walkLoop_sound root net fuel c pos root [] (by simp)
  · exact walkFnLoop_sound root net fn fuel c pos root [] (by simp)

/-- C4 witness: in the concrete two-step walk the reported leaf is under
the root and not an exception marker. -/
theorem walk_reported_under_root_witness :
    OID.HasPrefix varLeaf.oid [1, 3, 6] = true ∧ isWalkException varLeaf.vType = false :=
  (walk_reported_under_root clientV2 netLeafThenEnd 0 [1, 3, 6] 5 (fun _ => none)).1
    varLeaf (by decide)

/-! ## Walk error handling -/

/-- C5: a walk whose request comes back with the v1 noSuchName error status
does not terminate normally: sendRequest turns the status into a structured
SNMPError, and the IsEndOfMIB / IsNoSuchObject / IsNoSuchInstance checks of
the walk match only the sentinel errors (SNMPError has no Is or Unwrap
method), so the error propagates to the caller instead of ending the walk,
for noSuchName exactly as for every other non-zero status. -/
theorem walk_noSuchName_propagates :
    Client.Walk clientV1 (fun _ => some respNoSuchName) 0 [1, 3, 6] 5 =
        .done [] (some (.snmpError NoSuchName 0 [])) ∧
      IsEndOfMIB (.snmpError NoSuchName 0 []) = false ∧
      IsNoSuchObject (.snmpError NoSuchName 0 []) = false ∧
      IsNoSuchInstance (.snmpError NoSuchName 0 []) = false := by
  decide

/-! ## Non-progress in the walk loop -/

theorem encodeVariable_null (v : Variable) (h : v.vType = TypeNull) :
    encodeVariable v = .ok (encodeTLV TypeSequence
      (encodeTLV TypeObjectIdentifier (encodeOID v.oid) ++ encodeTLV TypeNull [])) := by
  simp [encodeVariable, h]

theorem encodeVariableBindingsAux_null (l : List Variable) (h : ∀ v ∈ l, v.vType = TypeNull) :
    ∃ bs, encodeVariableBindingsAux l = .ok bs := by
  induction l with
  | nil => exact ⟨[], rfl⟩
  | cons v rest ih =>
    obtain ⟨bs, hbs⟩ := ih fun x hx => h x (by simp [hx])
    simp only [encodeVariableBindingsAux, encodeVariable_null v (h v (by simp)), hbs]
    exact ⟨_, rfl⟩

theorem Message_encode_null (m : Message) (h : ∀ v ∈ m.pdu.vars, v.vType = TypeNull) :
    ∃ data, m.encode = .ok data := by
  obtain ⟨bs, hbs⟩ := encodeVariableBindingsAux_null m.pdu.vars h
  simp only [Message.encode, PDU.encode, encodeVariableBindings, hbs]
  exact ⟨_, rfl⟩

theorem getBulk_const_leaf (rid : Int) (pend : List Int) (pos : Nat) (cursor : OID)
    (data : List Nat)
    (hdata : Message.encode ⟨optsV2.version, optsV2.community,
        NewGetBulkRequest (nextRequestID ⟨optsV2, .StateConnected, rid, pend⟩).2 0 10
          [cursor]⟩ = .ok data) :
    Client.GetBulk ⟨optsV2, .StateConnected, rid, pend⟩ (fun _ => some respLeaf) pos 0 10
        [cursor] =
      ⟨⟨optsV2, .StateConnected, (nextRequestID ⟨optsV2, .StateConnected, rid, pend⟩).2, pend⟩,
        pos + 1, [data], .ok [varLeaf]⟩ := by
  have h1 : (nextRequestID (⟨optsV2, .StateConnected, rid, pend⟩ : Client)).1 =
      ⟨optsV2, .StateConnected, (nextRequestID ⟨optsV2, .StateConnected, rid, pend⟩).2, pend⟩ := by
    simp [nextRequestID]
  simp only [Client.GetBulk]
  rw [if_neg (by simp [optsV2, Version1, Version2c])]
  simp only [h1, sendRequest]
  rw [if_neg (by simp)]
  rw [hdata]
  simp [attemptLoop, respLeaf, NoError, optsV2]
  rfl

theorem walkLoop_const_leaf : ∀ (fuel : Nat) (rid : Int) (pend : List Int) (pos : Nat)
    (cursor : OID) (acc : List Variable),
    (walkLoop [1, 3, 6] (fun _ => some respLeaf) fuel ⟨optsV2, .StateConnected, rid, pend⟩ pos
      cursor acc).isOutOfFuel = true := by
  intro fuel
  induction fuel with
  | zero => intro rid pend pos cursor acc; rfl
  | succ n ih =>
    intro rid pend pos cursor acc
    obtain ⟨data, hdata⟩ := Message_encode_null
      ⟨optsV2.version, optsV2.community,
        NewGetBulkRequest (nextRequestID ⟨optsV2, .StateConnected, rid, pend⟩).2 0 10 [cursor]⟩
      (by intro v hv; simp [NewGetBulkRequest] at hv; simp [hv])
    simp only [walkLoop]
    rw [if_neg (by simp [optsV2, Version1, Version2c])]
    have hnr : (⟨optsV2, .StateConnected, rid, pend⟩ : Client).opts.nonRepeaters = 0 := rfl
    have hmr : (⟨optsV2, .StateConnected, rid, pend⟩ : Client).opts.maxRepetitions = 10 := rfl
    rw [hnr, hmr, getBulk_const_leaf rid pend pos cursor data hdata]
    simp only [List.length_cons, List.length_nil]
    rw [if_neg (by omega)]
    have hwv : walkVars [1, 3, 6] [varLeaf] acc = (acc ++ [varLeaf], false) := by
      simp [walkVars, varLeaf, OID.HasPrefix, isWalkException, TypeInteger, TypeEndOfMibView,
        TypeNoSuchObject, TypeNoSuchInstance]
    rw [hwv]
    exact ih _ pend (pos + 1) _ (acc ++ [varLeaf])

/-- C6: the walk has no non-progress guard: against an agent that always
answers with the same in-subtree varbind (so the returned OIDs never make
progress past the cursor), the loop never terminates, for any amount of
fuel, instead of aborting with a NonMonotonicWalk error as the claim
requires. No NonMonotonicWalk error kind exists in the source. -/
theorem walk_nonprogress_loops_forever (fuel : Nat) :
    (Client.Walk ⟨optsV2, .StateConnected, 41, []⟩ (fun _ => some respLeaf) 0 [1, 3, 6]
      fuel).isOutOfFuel = true :=
  walkLoop_const_leaf fuel 41 [] 0 [1, 3, 6] []

/-! ## The empty GET -/

theorem attemptLoop_sent_ne_nil (data : List Nat) (reqVars : List Variable) (net : Net)
    (n pos : Nat) : (attemptLoop data reqVars net (n + 1) pos).1 ≠ [] := by
  cases hnp : net pos with
  | some resp =>
    simp only [attemptLoop, hnp]
    split <;> simp
  | none => simp [attemptLoop, hnp]

/-- C8 counterexample: a GET with an empty OID list is not rejected. On a
connected client whose agent answers at once, the call writes a datagram
and returns the (empty) response varbind list with no error at all. -/
theorem get_empty_not_rejected_cex :
    (Client.Get clientV2 (fun _ => some respEmptyOk) 0 []).sent ≠ [] ∧
      (Client.Get clientV2 (fun _ => some respEmptyOk) 0 []).result = .ok [] := by
  decide

/-- C8 amended: Get with an empty OID list is not rejected: the GET PDU
with zero varbinds always encodes, and on any connected client at least
one request datagram is written to the socket. -/
theorem get_empty_sends (c : Client) (net : Net) (pos : Nat)
    (hconn : c.connState = .StateConnected) :
    (Client.Get c net pos []).sent ≠ [] := by
  have hc1 : (nextRequestID c).1.connState = .StateConnected := by
    simp [nextRequestID, hconn]
  obtain ⟨data, hdata⟩ := Message_encode_null
    ⟨(nextRequestID c).1.opts.version, (nextRequestID c).1.opts.community,
      NewGetRequest (nextRequestID c).2 []⟩ (by simp [NewGetRequest])
  simp only [Client.Get, sendRequest]
  rw [if_neg (by simp [hc1])]
  rw [hdata]
  exact attemptLoop_sent_ne_nil data _ net _ pos

/-- C8 witness: the concrete connected v2c client sends a datagram for an
empty GET. -/
theorem get_empty_sends_witness : (Client.Get clientV2 (fun _ => none) 0 []).sent ≠ [] :=
  get_empty_sends clientV2 (fun _ => none) 0 rfl

/-! ## Exception markers are never encoded -/

theorem encodeVariableBindingsAux_err (l : List Variable) (v : Variable) (hv : v ∈ l)
    (he : (encodeVariable v).isErr = true) :
    (encodeVariableBindingsAux l).isErr = true := by
  induction l with
  | nil => simp at hv
  | cons w rest ih =>
    rcases List.mem_cons.1 hv with heq | hmem
    · subst heq
      cases hev : encodeVariable v with
      | error e => simp [encodeVariableBindingsAux, hev, Except.isErr]
      | ok b => rw [hev] at he; simp [Except.isErr] at he
    · cases hw : encodeVariable w with
      | error e => simp [encodeVariableBindingsAux, hw, Except.isErr]
      | ok b =>
        have hrest := ih hmem
        cases haux : encodeVariableBindingsAux rest with
        | error e => simp [encodeVariableBindingsAux, hw, haux, Except.isErr]
        | ok bs => rw [haux] at hrest; simp [Except.isErr] at hrest

theorem Message_encode_err (m : Message)
    (h : (encodeVariableBindingsAux m.pdu.vars).isErr = true) : (m.encode).isErr = true := by
  cases haux : encodeVariableBindingsAux m.pdu.vars with
  | error e => simp [Message.encode, PDU.encode, encodeVariableBindings, haux, Except.isErr]
  | ok bs => rw [haux] at h; simp [Except.isErr] at h

/-- C9: encodeVariable fails on every variable whose type tag is an
exception marker (noSuchObject 0x80, noSuchInstance 0x81, endOfMibView
0x82); consequently a Set call containing such a varbind fails while the
message is being encoded, with no datagram written. -/
theorem set_exception_marker_rejected :
    (∀ v : Variable,
        v.vType = TypeNoSuchObject ∨ v.vType = TypeNoSuchInstance ∨ v.vType = TypeEndOfMibView →
        (encodeVariable v).isErr = true) ∧
      ∀ (c : Client) (net : Net) (pos : Nat) (vars : List Variable) (v : Variable),
        c.connState = .StateConnected → v ∈ vars →
        (v.vType = TypeNoSuchObject ∨ v.vType = TypeNoSuchInstance ∨
          v.vType = TypeEndOfMibView) →
        (Client.Set c net pos vars).sent = [] ∧
          ((Client.Set c net pos vars).result).isErr = true := by
  have henc : ∀ v : Variable,
      v.vType = TypeNoSuchObject ∨ v.vType = TypeNoSuchInstance ∨ v.vType = TypeEndOfMibView →
      (encodeVariable v).isErr = true := by
    intro v h
    rcases h with h | h | h <;>
      simp [encodeVariable, h, TypeNull, TypeInteger, TypeOctetString, TypeObjectIdentifier,
        TypeIPAddress, TypeCounter32, TypeGauge32, TypeTimeTicks, TypeUInteger32, TypeCounter64,
        TypeOpaque, TypeNoSuchObject, TypeNoSuchInstance, TypeEndOfMibView, Except.isErr]
  refine ⟨henc, ?_⟩
  intro c net pos vars v hconn hmem hexc
  have hc1 : (nextRequestID c).1.connState = .StateConnected := by
    simp [nextRequestID, hconn]
  have herr : ((⟨(nextRequestID c).1.opts.version, (nextRequestID c).1.opts.community,
      NewSetRequest (nextRequestID c).2 vars⟩ : Message).encode).isErr = true := by
    apply Message_encode_err
    exact encodeVariableBindingsAux_err vars v hmem (henc v hexc)
  simp only [Client.Set, sendRequest]
  rw [if_neg (by simp [hc1])]
  cases hm : (⟨(nextRequestID c).1.opts.version, (nextRequestID c).1.opts.community,
      NewSetRequest (nextRequestID c).2 vars⟩ : Message).encode with
  | error e => simp [Except.map, Except.isErr]
  | ok d => rw [hm] at herr; simp [Except.isErr] at herr

/-- C9 witness: a Set carrying a noSuchObject-typed varbind on the concrete
connected client encodes nothing and sends nothing. -/
theorem set_exception_marker_rejected_witness :
    (encodeVariable varException).isErr = true ∧
      (Client.Set clientV2 (fun _ => none) 0 [varException]).sent = [] ∧
        ((Client.Set clientV2 (fun _ => none) 0 [varException]).result).isErr = true :=
  ⟨set_exception_marker_rejected.1 varException (Or.inl rfl),
    set_exception_marker_rejected.2 clientV2 (fun _ => none) 0 [varException] varException
      rfl (by decide) (Or.inl rfl)⟩

/-! ## One-component OIDs do not round-trip -/

/-- C10: ParseOID accepts the single-component string "1" and returns the
one-component OID; encodeOID maps every OID shorter than two components to
the empty byte string, so the varbind encodes without any error as a
zero-length OBJECT IDENTIFIER field; decodeVariable then rejects that field
(decodeOID errors on an empty encoding), so the varbind cannot
round-trip. -/
theorem parseOID_single_no_roundtrip :
    ParseOID "1" = Except.ok [1] ∧
      encodeOID [1] = [] ∧
      encodeVariable ⟨[1], TypeNull, .nil⟩ = Except.ok [48, 4, 6, 0, 5, 0] ∧
      decodeVariable [48, 4, 6, 0, 5, 0] = Except.error "empty OID" := by
  decide

end Snmp
